import Mathlib

/-!
Verification development for the h2h-Snake repository.

The repository contains several iterations of the authoritative game
server.  Two of them are embedded here:

* `Part003` — the latest server iteration (`src/unnamed/part_003`), the one
  with the scripted AI opponent.  Its `updateGameTick`, `getAiNextMove`,
  `directionChange` handler, `createNewBoardState` and `getRandomPosition`
  are translated definition by definition.
* `ServerJs` — the tick resolver of `src/server.js`, which differs from
  `Part003` in three observable ways: the `gameEndedThisTick` flag makes the
  per-tick loop skip the second board once the first board has died, the
  debuff score penalty is applied without the `Math.max(0, ...)` clamp, and
  movement is derived from the `direction` field rather than `dx`/`dy`.

Randomness (`Math.random`) is modelled by explicit oracle parameters: the
rejection sampler `getRandomPosition` receives the stream of successive
uniform draws as a function `Nat → Pos`, and the tick resolvers receive the
whole sampler as a function from exclusion lists to positions.
-/

namespace Snake

/-- A grid coordinate.  JS number fields `x`/`y`; movement deltas can be
negative, so coordinates are integers. -/
structure Pos where
  x : Int
  y : Int
deriving DecidableEq, Repr

/-- The four heading values `'up'`, `'down'`, `'left'`, `'right'`. -/
inductive Dir where
  | up
  | down
  | left
  | right
deriving DecidableEq, Repr

/-- `GRID_SIZE` from the source. -/
def GRID_SIZE : Nat := 20

/-- `MIN_SNAKE_LENGTH` from the source. -/
def MIN_SNAKE_LENGTH : Nat := 2

/-- `DEBUFF_TRIGGER_COUNT` from the source. -/
def DEBUFF_TRIGGER_COUNT : Nat := 3

/-- `DEBUFF_SHRINK_AMOUNT` from the source. -/
def DEBUFF_SHRINK_AMOUNT : Nat := 2

/-- Coordinate-wise equality test, as written in the source
(`a.x === b.x && a.y === b.y`). -/
def posEq (a b : Pos) : Bool :=
  a.x == b.x && a.y == b.y

/-- `exclude.some(item => item.x === p.x && item.y === p.y)`:
whether `p` collides with some member of the list. -/
def posMem (p : Pos) (l : List Pos) : Bool :=
  l.any (fun q => posEq p q)

/-- `Array.prototype.findIndex` for the debuff search
`board.debuffs.findIndex(d => d.x === nextHead.x && d.y === nextHead.y)`,
with `none` for the JS result `-1`. -/
def findIndexPos (nh : Pos) : List Pos → Option Nat
  | [] => none
  | d :: t => if posEq d nh then some 0 else (findIndexPos nh t).map (· + 1)

/-- The wall test `p.x < 0 || p.x >= GRID_SIZE || p.y < 0 || p.y >= GRID_SIZE`. -/
def wallHit (p : Pos) : Bool :=
  decide (p.x < 0) || decide ((GRID_SIZE : Int) ≤ p.x) ||
  decide (p.y < 0) || decide ((GRID_SIZE : Int) ≤ p.y)

/-- The rejection-sampling loop of `getRandomPosition`.  `samples k` is the
`k`-th uniform draw, `fuel` the number of attempts still allowed.  Each
iteration draws `samples k`; a draw free of `exclude` is returned at once,
an occupied draw is returned when it was the final allowed attempt.  The
`⟨0, 0⟩` result models the JS fallback `position || { x: 0, y: 0 }`, which
can only be reached when the attempt budget is zero and `position` was
never assigned. -/
def grpGo (samples : Nat → Pos) (exclude : List Pos) : Nat → Nat → Pos
  | _, 0 => ⟨0, 0⟩
  | k, fuel + 1 =>
    let p := samples k
    if posMem p exclude then
      if fuel = 0 then p else grpGo samples exclude (k + 1) fuel
    else p

/-- `getRandomPosition(exclude)` with the stream of `Math.random` draws made
explicit.  The attempt budget is `maxAttempts = GRID_SIZE * GRID_SIZE`. -/
def getRandomPosition (samples : Nat → Pos) (exclude : List Pos) : Pos :=
  grpGo samples exclude 0 (GRID_SIZE * GRID_SIZE)

/-- The simulation-relevant fields of a board object
(`createNewBoardState`).  `playerId`, `color` and `playerName` are display
metadata and are omitted.  `src/server.js` boards carry no `dx`/`dy`; its
resolver below simply never reads them. -/
structure Board where
  snake : List Pos
  direction : Dir
  dx : Int
  dy : Int
  score : Int
  food : Pos
  debuffs : List Pos
  powerups : List Pos
  foodEatenCounter : Nat
  isGameOver : Bool
deriving DecidableEq, Repr

/-- The payload of the `gameOver` emission at the end of a tick:
`winnerId` (0 = draw) and whether the reason string was `'draw'`. -/
structure GameResult where
  winnerId : Nat
  reasonDraw : Bool
deriving DecidableEq, Repr

/-- `boards[k]?.isGameOver` — falsy when the slot is empty. -/
def optOver : Option Board → Bool
  | none => false
  | some b => b.isGameOver

/-- `dx` for each direction, as in the `switch` statements and the
`allDirections` table of both server iterations. -/
def dirDX : Dir → Int
  | .up => 0
  | .down => 0
  | .left => -1
  | .right => 1

/-- `dy` for each direction. -/
def dirDY : Dir → Int
  | .up => -1
  | .down => 1
  | .left => 0
  | .right => 0

namespace Part003

/-- `nextHead = { x: currentHead.x + board.dx, y: currentHead.y + board.dy }`
where `currentHead = board.snake[0]`. -/
def nextHeadOf (b : Board) : Pos :=
  let h := b.snake.headD ⟨0, 0⟩
  ⟨h.x + b.dx, h.y + b.dy⟩

/-- The debuff shrink loop:
`while (segmentsToRemove > 0 && board.snake.length > MIN_SNAKE_LENGTH) pop`. -/
def shrinkSnake : Nat → List Pos → List Pos
  | 0, s => s
  | n + 1, s =>
    if MIN_SNAKE_LENGTH < s.length then shrinkSnake n s.dropLast else s

/-- The body of the food branch of `updateGameTick` (lines 737–759 of
`src/unnamed/part_003`): score +10, counter increment, food respawn
excluding snake ∪ food ∪ debuffs ∪ powerups, and — when the counter reaches
`DEBUFF_TRIGGER_COUNT` — counter reset plus one debuff pushed onto the
opponent board when that board exists and is not over. -/
def foodStep (oracle : List Pos → Pos) (b : Board) (opp : Option Board) :
    Board × Option Board :=
  let bf : Board :=
    { b with
      score := b.score + 10
      foodEatenCounter := b.foodEatenCounter + 1
      food := oracle (b.snake ++ [b.food] ++ b.debuffs ++ b.powerups) }
  if DEBUFF_TRIGGER_COUNT ≤ bf.foodEatenCounter then
    ({ bf with foodEatenCounter := 0 },
     match opp with
     | none => none
     | some o =>
       if o.isGameOver then some o
       else some { o with
         debuffs := o.debuffs ++ [oracle (o.snake ++ [o.food] ++ o.debuffs ++ o.powerups)] })
  else (bf, opp)

/-- The debuff branch (lines 761–780): remove the first debuff matching the
next head, clamp the score at zero after the −5 penalty, and shrink the
tail.  The returned flag is `justShrunkByDebuff`. -/
def debuffStep (nh : Pos) (b : Board) : Board × Bool :=
  match findIndexPos nh b.debuffs with
  | some i =>
    ({ b with
       debuffs := b.debuffs.eraseIdx i
       score := max 0 (b.score - 5)
       snake := shrinkSnake DEBUFF_SHRINK_AMOUNT b.snake }, true)
  | none => (b, false)

/-- The growth rule (lines 782–791): unconditionally prepend the new head;
on a plain move pop the tail when the length allows it; after a shrink,
terminate if the snake has become empty.  The returned flag is the
contribution to `gameShouldEnd`. -/
def growthStep (nh : Pos) (ateFood justShrunk : Bool) (b : Board) : Board × Bool :=
  let b3 : Board := { b with snake := nh :: b.snake }
  if !ateFood && !justShrunk then
    if MIN_SNAKE_LENGTH < b3.snake.length then
      ({ b3 with snake := b3.snake.dropLast }, false)
    else if 1 < b3.snake.length ∧ b3.score = 0 then
      ({ b3 with snake := b3.snake.dropLast }, false)
    else (b3, false)
  else if justShrunk && b3.snake.length == 0 then
    ({ b3 with isGameOver := true }, true)
  else (b3, false)

/-- One board's resolution inside `updateGameTick` (lines 702–794 of
`src/unnamed/part_003`), for a board that passed the
`!boards[playerId] || boards[playerId].isGameOver` guard.  Returns the
updated board, the (possibly debuffed) opponent slot, and the
`gameShouldEnd` contribution. -/
def tickCore (oracle : List Pos → Pos) (b : Board) (opp : Option Board) :
    Board × Option Board × Bool :=
  let nh := nextHeadOf b
  if wallHit nh then ({ b with isGameOver := true }, opp, true)
  else if posMem nh b.snake then ({ b with isGameOver := true }, opp, true)
  else
    let ateFood := posEq nh b.food
    let p1 := if ateFood then foodStep oracle b opp else (b, opp)
    let p2 := debuffStep nh p1.1
    let p3 := growthStep nh ateFood p2.2 p2.1
    if p3.1.snake.length = 0 then ({ p3.1 with isGameOver := true }, p1.2, true)
    else (p3.1, p1.2, p3.2)

/-- One slot of the `[1, 2].forEach` loop, including the
`!boards[playerId] || boards[playerId].isGameOver` guard. -/
def tickSlot (oracle : List Pos → Pos) (s : Option Board) (opp : Option Board) :
    Option Board × Option Board × Bool :=
  match s with
  | none => (none, opp, false)
  | some b =>
    if b.isGameOver then (some b, opp, false)
    else
      let r := tickCore oracle b opp
      (some r.1, r.2.1, r.2.2)

/-- The movement-resolution and result-evaluation part of `updateGameTick`
(lines 699–817 of `src/unnamed/part_003`): resolve slot 1 against slot 2,
then slot 2 against the updated slot 1, then evaluate the match result.
Returns the two slots and, when the game ended, the `gameOver` payload
(`winnerId`, and whether the reason was `'draw'`). -/
def updateGameTick (oracle : List Pos → Pos) (s1 s2 : Option Board) :
    (Option Board × Option Board) × Option GameResult :=
  let r1 := tickSlot oracle s1 s2
  let r2 := tickSlot oracle r1.2.1 r1.1
  let s1f := r2.2.1
  let s2f := r2.1
  let over1 := optOver s1f
  let over2 := optOver s2f
  if r1.2.2 || r2.2.2 || over1 || over2 then
    ((s1f, s2f),
     some { winnerId :=
              if over1 && over2 then 0
              else if over1 then 2
              else if over2 then 1
              else 0
            reasonDraw := over1 && over2 })
  else ((s1f, s2f), none)

/-- `createNewBoardState(playerId, ...)` of `src/unnamed/part_003`
(simulation-relevant fields).  `startX = Math.floor(GRID_SIZE / 4) +
(playerId === 1 ? 0 : Math.floor(GRID_SIZE / 2.5))`; with `GRID_SIZE = 20`
the second summand is `8`.  `startY = Math.floor(GRID_SIZE / 2)`. -/
def createNewBoardState (oracle : List Pos → Pos) (playerId : Nat) : Board :=
  let startX : Int := 5 + (if playerId = 1 then 0 else 8)
  let startY : Int := 10
  let initialSnake : List Pos := [⟨startX, startY⟩, ⟨startX - 1, startY⟩]
  { snake := initialSnake
    direction := .right
    dx := 1
    dy := 0
    score := 0
    food := oracle initialSnake
    debuffs := []
    powerups := []
    foodEatenCounter := 0
    isGameOver := false }

/-- The `directionChange` legality condition of `src/unnamed/part_003`
(lines 454–459): the requested direction is accepted when it is not the
exact reverse of the current heading.  The JS disjunct
`|| !currentDirString` (initial null direction) cannot fire here because a
board's `direction` is always one of the four headings. -/
def dirChangeAllowed (cur newDir : Dir) : Bool :=
  (newDir == .up && !(cur == .down)) ||
  (newDir == .down && !(cur == .up)) ||
  (newDir == .left && !(cur == .right)) ||
  (newDir == .right && !(cur == .left))

/-- The mutation performed by an accepted `directionChange` request:
`board.direction = newDirection` plus the `dx`/`dy` switch. -/
def applyDirection (newDir : Dir) (b : Board) : Board :=
  { b with direction := newDir, dx := dirDX newDir, dy := dirDY newDir }

/-- The `socket.on('directionChange', ...)` handler of
`src/unnamed/part_003` (lines 446–469), as a function of the
`gameActuallyRunning` flag, the requester's board slot and the requested
direction.  A missing slot models `!playerInfo || !boards[...]`. -/
def directionChange (gameActuallyRunning : Bool) (slot : Option Board)
    (newDir : Dir) : Option Board :=
  if !gameActuallyRunning then slot
  else
    match slot with
    | none => slot
    | some b =>
      if b.isGameOver then slot
      else if dirChangeAllowed b.direction newDir then some (applyDirection newDir b)
      else slot

/-- `allDirections` from `getAiNextMove`, in its enumeration order. -/
def allDirections : List Dir := [.up, .down, .left, .right]

/-- The head resulting from one move in direction `d`. -/
def stepPos (p : Pos) (d : Dir) : Pos :=
  ⟨p.x + dirDX d, p.y + dirDY d⟩

/-- The exact reverse of a heading. -/
def revDir : Dir → Dir
  | .up => .down
  | .down => .up
  | .left => .right
  | .right => .left

/-- The level-1 filter of `getAiNextMove`: a candidate direction is kept
when it is not the reverse of the current heading, its resulting head is
in bounds, and that head collides with no current snake segment. -/
def aiLevel1Keep (head : Pos) (snake : List Pos) (cur : Dir) (d : Dir) : Bool :=
  !(d == revDir cur) && !(wallHit (stepPos head d)) && !(posMem (stepPos head d) snake)

/-- The level-2 filter of `getAiNextMove` (lines 902–949): discard a
level-1 candidate when continuing straight would hit a wall (unless the
first move lands on the food), or when no non-reverse second move from the
new head avoids the snake-after-first-move
`[nextHead, ...snake.slice(0, length - 1)]`. -/
def aiLevel2Keep (head : Pos) (snake : List Pos) (food : Pos) (d : Dir) : Bool :=
  let nh := stepPos head d
  let isWallTrap := if posEq nh food then false else wallHit (stepPos nh d)
  let snakeAfterMove1 := nh :: snake.dropLast
  let canMakeSecondMove := allDirections.any (fun nd =>
    !(nd == revDir d) && !(wallHit (stepPos nh nd)) && !(posMem (stepPos nh nd) snakeAfterMove1))
  !isWallTrap && canMakeSecondMove

/-- `Math.abs(pHead.x - food.x) + Math.abs(pHead.y - food.y)`. -/
def manhattan (a b : Pos) : Nat :=
  (a.x - b.x).natAbs + (a.y - b.y).natAbs

/-- One iteration of the food-distance selection loop of `getAiNextMove`
(lines 963–974).  The accumulator is `(finalChoice, minDistanceToFood)`,
with `none` as the initial `null` / `Infinity`. -/
def chooseStep (head food : Pos) (cur : Dir) (acc : Option Dir × Option Nat)
    (d : Dir) : Option Dir × Option Nat :=
  let dist := manhattan (stepPos head d) food
  match acc.2 with
  | none => (some d, some dist)
  | some m =>
    if dist < m then (some d, some dist)
    else if dist = m then (if d == cur then (some d, some m) else acc)
    else acc

/-- `getAiNextMove(aiBoard, opponentBoard)` of `src/unnamed/part_003`
(lines 855–984).  The `opponentBoard` parameter is kept for the source's
signature and, exactly as in the source, never read. -/
def getAiNextMove (aiBoard : Board) (opponentBoard : Option Board) : Dir :=
  if aiBoard.snake.isEmpty then aiBoard.direction
  else
    let head := aiBoard.snake.headD ⟨0, 0⟩
    let snake := aiBoard.snake
    let food := aiBoard.food
    let cur := aiBoard.direction
    let level1SafeMoves := allDirections.filter (aiLevel1Keep head snake cur)
    if level1SafeMoves.isEmpty then cur
    else
      let level2SafeMoves := level1SafeMoves.filter (aiLevel2Keep head snake food)
      let bestMovesToConsider :=
        if level2SafeMoves.isEmpty then level1SafeMoves else level2SafeMoves
      match (bestMovesToConsider.foldl (chooseStep head food cur) (none, none)).1 with
      | some d => d
      | none =>
        if bestMovesToConsider.contains cur then cur
        else bestMovesToConsider.headD cur

end Part003

namespace ServerJs

/-- `src/server.js` computes the next head from the `direction` field
(`switch (board.direction)`, lines 413–418). -/
def nextHeadOf (b : Board) : Pos :=
  let h := b.snake.headD ⟨0, 0⟩
  ⟨h.x + dirDX b.direction, h.y + dirDY b.direction⟩

/-- The `src/server.js` debuff shrink loop, also counting
`shrinkAmountApplied` (lines 441–444). -/
def sjShrink : Nat → List Pos → List Pos × Nat
  | 0, s => (s, 0)
  | n + 1, s =>
    if MIN_SNAKE_LENGTH < s.length then
      let r := sjShrink n s.dropLast
      (r.1, r.2 + 1)
    else (s, 0)

/-- The food branch of `src/server.js` `updateGameTick` (lines 428–437).
Identical to the `part_003` branch; both board slots are occupied whenever
this tick runs, so the opponent is a plain board. -/
def foodStep (oracle : List Pos → Pos) (b : Board) (opp : Board) : Board × Board :=
  let bf : Board :=
    { b with
      score := b.score + 10
      foodEatenCounter := b.foodEatenCounter + 1
      food := oracle (b.snake ++ [b.food] ++ b.debuffs ++ b.powerups) }
  if DEBUFF_TRIGGER_COUNT ≤ bf.foodEatenCounter then
    ({ bf with foodEatenCounter := 0 },
     if opp.isGameOver then opp
     else { opp with
       debuffs := opp.debuffs ++ [oracle (opp.snake ++ [opp.food] ++ opp.debuffs ++ opp.powerups)] })
  else (bf, opp)

/-- The debuff branch of `src/server.js` (lines 438–445): the score penalty
`board.score -= 5` is applied **without** the `Math.max(0, ...)` clamp used
by the later iterations.  Returns the board and `shrinkAmountApplied`. -/
def debuffStep (nh : Pos) (b : Board) : Board × Nat :=
  match findIndexPos nh b.debuffs with
  | some i =>
    let r := sjShrink DEBUFF_SHRINK_AMOUNT b.snake
    ({ b with
       debuffs := b.debuffs.eraseIdx i
       score := b.score - 5
       snake := r.1 }, r.2)
  | none => (b, 0)

/-- The growth rule of `src/server.js` (lines 446–449): prepend the new
head, then pop the tail when no food was eaten, no shrink was applied
(`shrinkAmountApplied === 0`) and the length allows it. -/
def growthStep (nh : Pos) (ateFood : Bool) (shrinkApplied : Nat) (b : Board) : Board :=
  let b3 : Board := { b with snake := nh :: b.snake }
  if !ateFood && shrinkApplied == 0 && decide (MIN_SNAKE_LENGTH < b3.snake.length) then
    { b3 with snake := b3.snake.dropLast }
  else b3

/-- One board's resolution in `src/server.js` `updateGameTick`
(lines 408–449), for a board that passed the slot guard. -/
def tickCore (oracle : List Pos → Pos) (b : Board) (opp : Board) :
    Board × Board × Bool :=
  let nh := nextHeadOf b
  if wallHit nh then ({ b with isGameOver := true }, opp, true)
  else if posMem nh b.snake then ({ b with isGameOver := true }, opp, true)
  else
    let ateFood := posEq nh b.food
    let p1 := if ateFood then foodStep oracle b opp else (b, opp)
    let p2 := debuffStep nh p1.1
    (growthStep nh ateFood p2.2 p2.1, p1.2, false)

/-- `updateGameTick` of `src/server.js` (lines 405–458).  The per-slot
guard is `if (gameEndedThisTick || boards[playerId].isGameOver) return;`,
so once slot 1 died this tick, slot 2 is **not** resolved at all.  Returns
both boards and the emitted `winnerId` (`none` when the game goes on). -/
def updateGameTick (oracle : List Pos → Pos) (b1 b2 : Board) :
    (Board × Board) × Option Nat :=
  let r1 := if b1.isGameOver then (b1, b2, false) else tickCore oracle b1 b2
  let b2a := r1.2.1
  let r2 :=
    if r1.2.2 || b2a.isGameOver then (b2a, r1.1, false)
    else tickCore oracle b2a r1.1
  let b1f := r2.2.1
  let b2f := r2.1
  ((b1f, b2f),
   if b1f.isGameOver && b2f.isGameOver then some 0
   else if b1f.isGameOver then some 2
   else if b2f.isGameOver then some 1
   else none)

end ServerJs

/-- Whether the next head computed by the `part_003` resolver is
independently fatal for `b` this tick: it hits a wall or the board's own
snake. -/
def Part003.fatalNext (b : Board) : Bool :=
  wallHit (Part003.nextHeadOf b) || posMem (Part003.nextHeadOf b) b.snake

/-- Whether the next head computed by the `src/server.js` resolver is
independently fatal for `b` this tick. -/
def ServerJs.fatalNext (b : Board) : Bool :=
  wallHit (ServerJs.nextHeadOf b) || posMem (ServerJs.nextHeadOf b) b.snake

/-! ## Concrete example states used by witnesses and counterexamples -/

/-- A constant oracle; the positions it returns are irrelevant to the
properties below. -/
def oracleC : List Pos → Pos := fun _ => ⟨9, 9⟩

/-- A board one step from the right wall, heading right. -/
def bWallC : Board := ⟨[⟨19, 5⟩, ⟨18, 5⟩], .right, 1, 0, 0, ⟨1, 1⟩, [], [], 0, false⟩

/-- A mid-grid board with its food straight ahead. -/
def bMidC : Board := ⟨[⟨5, 5⟩, ⟨4, 5⟩], .right, 1, 0, 0, ⟨6, 5⟩, [], [], 0, false⟩

/-- A mid-grid board with a debuff straight ahead and score 0. -/
def bDebC : Board := ⟨[⟨5, 5⟩, ⟨4, 5⟩], .right, 1, 0, 0, ⟨1, 1⟩, [⟨6, 5⟩], [], 0, false⟩

/-- A board curled into a square whose next head is its own tail cell. -/
def bTailC : Board :=
  ⟨[⟨5, 5⟩, ⟨6, 5⟩, ⟨6, 6⟩, ⟨5, 6⟩], .down, 0, 1, 0, ⟨1, 1⟩, [], [], 0, false⟩

/-- A length-3 board on a plain move (no food, no debuff ahead). -/
def bLong3C : Board :=
  ⟨[⟨5, 5⟩, ⟨4, 5⟩, ⟨3, 5⟩], .right, 1, 0, 5, ⟨1, 1⟩, [], [], 0, false⟩

/-- A board one food away from the debuff trigger (counter 2, food ahead). -/
def bTrigC : Board := { bMidC with foodEatenCounter := 2 }

/-! ## Generic helper lemmas -/

theorem intBeq_comm (a b : Int) : (a == b) = (b == a) := by
  by_cases h : a = b
  · subst h; rfl
  · simp [beq_eq_false_iff_ne, h, Ne.symm h]

theorem posEq_comm (a b : Pos) : posEq a b = posEq b a := by
  unfold posEq
  rw [intBeq_comm a.x b.x, intBeq_comm a.y b.y]

theorem posMem_cons (p q : Pos) (l : List Pos) :
    posMem p (q :: l) = (posEq p q || posMem p l) := by
  simp [posMem]

theorem findIndexPos_of_posMem (nh : Pos) (l : List Pos) (h : posMem nh l = true) :
    ∃ i, findIndexPos nh l = some i ∧ i < l.length := by
  induction l with
  | nil => simp [posMem] at h
  | cons q t ih =>
    rw [posMem_cons] at h
    rcases Bool.or_eq_true_iff.mp h with hq | ht
    · exact ⟨0, by simp [findIndexPos, posEq_comm nh q ▸ hq, posEq_comm q nh, hq], by simp⟩
    · rcases ih ht with ⟨i, hfind, hlt⟩
      by_cases hq : posEq q nh = true
      · exact ⟨0, by simp [findIndexPos, hq], by simp⟩
      · refine ⟨i + 1, ?_, by simpa using Nat.succ_lt_succ hlt⟩
        simp [findIndexPos, hq, hfind]

theorem findIndexPos_of_not_posMem (nh : Pos) (l : List Pos)
    (h : posMem nh l = false) : findIndexPos nh l = none := by
  induction l with
  | nil => rfl
  | cons q t ih =>
    rw [posMem_cons, Bool.or_eq_false_iff] at h
    have hq : posEq q nh = false := posEq_comm q nh ▸ h.1
    simp [findIndexPos, hq, ih h.2]

theorem dir_ne_revDir (d : Dir) : d ≠ Part003.revDir d := by
  cases d <;> decide

/-! ## C10 — the AI policy ignores the opponent board -/

/-- C10: `getAiNextMove` is a pure function of the AI board (and the fixed
grid): its result is the same for every pair of opponent-board arguments,
including an absent one. -/
theorem getAiNextMove_ignores_opponent (b : Board) (o1 o2 : Option Board) :
    Part003.getAiNextMove b o1 = Part003.getAiNextMove b o2 := rfl

/-! ## C9 — the directionChange handler -/

theorem dirChangeAllowed_eq (cur newDir : Dir) :
    Part003.dirChangeAllowed cur newDir = !(newDir == Part003.revDir cur) := by
  cases cur <;> cases newDir <;> decide

/-- C9: a `directionChange` request mutates the heading exactly when the
game is running, the requester's board exists and is not over, and the
requested direction is not the exact reverse of the current heading; in
every other case the slot is returned unchanged. -/
theorem directionChange_spec :
    (∀ (slot : Option Board) (n : Dir), Part003.directionChange false slot n = slot) ∧
    (∀ n : Dir, Part003.directionChange true none n = none) ∧
    (∀ (b : Board) (n : Dir), b.isGameOver = true →
      Part003.directionChange true (some b) n = some b) ∧
    (∀ b : Board,
      Part003.directionChange true (some b) (Part003.revDir b.direction) = some b) ∧
    (∀ (b : Board) (n : Dir), b.isGameOver = false → n ≠ Part003.revDir b.direction →
      Part003.directionChange true (some b) n = some (Part003.applyDirection n b) ∧
      (Part003.applyDirection n b).direction = n) := by
  refine ⟨?_, ?_, ?_, ?_, ?_⟩
  · intro slot n; simp [Part003.directionChange]
  · intro n; simp [Part003.directionChange]
  · intro b n hb; simp [Part003.directionChange, hb]
  · intro b
    have hall : Part003.dirChangeAllowed b.direction (Part003.revDir b.direction) = false := by
      rw [dirChangeAllowed_eq]; simp
    by_cases hb : b.isGameOver <;> simp [Part003.directionChange, hb, hall]
  · intro b n hb hn
    have hall : Part003.dirChangeAllowed b.direction n = true := by
      rw [dirChangeAllowed_eq]
      simp [beq_eq_false_iff_ne, hn]
    exact ⟨by simp [Part003.directionChange, hb, hall], rfl⟩

/-- Witness for C9 at concrete states: a request on a terminated board is
ignored, and a legal request on a live board is applied. -/
theorem directionChange_spec_witness :
    Part003.directionChange true (some { bMidC with isGameOver := true }) .up =
      some { bMidC with isGameOver := true } ∧
    Part003.directionChange true (some bMidC) .up =
      some (Part003.applyDirection .up bMidC) :=
  ⟨directionChange_spec.2.2.1 { bMidC with isGameOver := true } .up rfl,
   (directionChange_spec.2.2.2.2 bMidC .up rfl (by decide)).1⟩

/-! ## C4 — self-collision (tail included) terminates with no mutation -/

/-- C4: in both server iterations, when the computed next head lies on any
current snake segment (the tail cell included), the board is terminated on
that tick and nothing else of it is mutated — the result board is the input
board with only `isGameOver` set, and the opponent slot is untouched. -/
theorem selfCollision_terminates_unchanged :
    (∀ (oracle : List Pos → Pos) (b : Board) (opp : Option Board),
      b.isGameOver = false →
      posMem (Part003.nextHeadOf b) b.snake = true →
      Part003.tickSlot oracle (some b) opp =
        (some { b with isGameOver := true }, opp, true)) ∧
    (∀ (oracle : List Pos → Pos) (b opp : Board),
      b.isGameOver = false →
      posMem (ServerJs.nextHeadOf b) b.snake = true →
      ServerJs.tickCore oracle b opp = ({ b with isGameOver := true }, opp, true)) := by
  constructor
  · intro oracle b opp hover hself
    cases hw : wallHit (Part003.nextHeadOf b) <;>
      simp [Part003.tickSlot, Part003.tickCore, hover, hself, hw]
  · intro oracle b opp hover hself
    cases hw : wallHit (ServerJs.nextHeadOf b) <;>
      simp [ServerJs.tickCore, hover, hself, hw]

/-- Witness for C4: a snake curled into a square moving into the cell its
own tail currently occupies dies in both iterations, mutating nothing. -/
theorem selfCollision_terminates_unchanged_witness :
    Part003.tickSlot oracleC (some bTailC) none =
      (some { bTailC with isGameOver := true }, none, true) ∧
    ServerJs.tickCore oracleC bTailC bMidC =
      ({ bTailC with isGameOver := true }, bMidC, true) :=
  ⟨selfCollision_terminates_unchanged.1 oracleC bTailC none rfl (by decide),
   selfCollision_terminates_unchanged.2 oracleC bTailC bMidC rfl (by decide)⟩

/-! ## C6 — the random position oracle under saturation -/

theorem grpGo_free_or_last (samples : Nat → Pos) (exclude : List Pos) :
    ∀ (fuel k : Nat), 0 < fuel →
      posMem (grpGo samples exclude k fuel) exclude = false ∨
      grpGo samples exclude k fuel = samples (k + fuel - 1) := by
  intro fuel
  induction fuel with
  | zero => intro k h; exact absurd h (by simp)
  | succ m ih =>
    intro k _
    unfold grpGo
    cases hp : posMem (samples k) exclude
    · left; simp [hp]
    · simp only [hp, if_true]
      rcases Nat.eq_zero_or_pos m with hm | hm
      · subst hm; right; simp
      · have hm' : m ≠ 0 := Nat.pos_iff_ne_zero.mp hm
        rcases ih (k + 1) hm with hfree | hlast
        · left; simpa [hm'] using hfree
        · right
          have : k + 1 + m - 1 = k + (m + 1) - 1 := by omega
          simpa [hm', this] using hlast

theorem grpGo_all_occupied (samples : Nat → Pos) (exclude : List Pos) :
    ∀ (fuel k : Nat), 0 < fuel →
      (∀ j, j < fuel → posMem (samples (k + j)) exclude = true) →
      grpGo samples exclude k fuel = samples (k + fuel - 1) := by
  intro fuel
  induction fuel with
  | zero => intro k h; exact absurd h (by simp)
  | succ m ih =>
    intro k _ hall
    have h0 : posMem (samples k) exclude = true := by simpa using hall 0 (by omega)
    unfold grpGo
    simp only [h0, if_true]
    rcases Nat.eq_zero_or_pos m with hm | hm
    · subst hm; simp
    · have hm' : m ≠ 0 := Nat.pos_iff_ne_zero.mp hm
      have hrec := ih (k + 1) hm (fun j hj => by
        have := hall (j + 1) (by omega)
        simpa [Nat.add_assoc, Nat.add_comm 1 j] using this)
      have harith : k + 1 + m - 1 = k + (m + 1) - 1 := by omega
      simpa [hm', harith] using hrec

/-- C6 (amended): `getRandomPosition` retries at most
`GRID_SIZE * GRID_SIZE` samples and always returns; when some draw within
the budget is free, the result avoids the forbidden set, and otherwise it
returns the final (400th) draw itself — which still lies in the forbidden
set — rather than the dead `(0, 0)` fallback. -/
theorem getRandomPosition_saturation :
    (∀ (samples : Nat → Pos) (exclude : List Pos),
      posMem (getRandomPosition samples exclude) exclude = false ∨
      getRandomPosition samples exclude = samples (GRID_SIZE * GRID_SIZE - 1)) ∧
    (∀ (samples : Nat → Pos) (exclude : List Pos),
      ((List.range (GRID_SIZE * GRID_SIZE)).all fun j => posMem (samples j) exclude) = true →
      getRandomPosition samples exclude = samples (GRID_SIZE * GRID_SIZE - 1)) := by
  constructor
  · intro samples exclude
    have h := grpGo_free_or_last samples exclude (GRID_SIZE * GRID_SIZE) 0 (by decide)
    simpa [getRandomPosition] using h
  · intro samples exclude hall
    have hall' : ∀ j, j < GRID_SIZE * GRID_SIZE → posMem (samples (0 + j)) exclude = true := by
      intro j hj
      have hmem : j ∈ List.range (GRID_SIZE * GRID_SIZE) := List.mem_range.mpr hj
      simpa using List.all_eq_true.mp hall j hmem
    have h := grpGo_all_occupied samples exclude (GRID_SIZE * GRID_SIZE) 0 (by decide) hall'
    simpa [getRandomPosition] using h

end Snake

namespace Snake

/-! ## C1 — simultaneous fatal moves -/

theorem tickCore_fatal (oracle : List Pos → Pos) (b : Board) (opp : Option Board)
    (hf : Part003.fatalNext b = true) :
    Part003.tickCore oracle b opp = ({ b with isGameOver := true }, opp, true) := by
  rcases Bool.or_eq_true_iff.mp hf with hw | hs
  · simp [Part003.tickCore, hw]
  · cases hw : wallHit (Part003.nextHeadOf b) <;> simp [Part003.tickCore, hw, hs]

/-- C1 (amended): in the `part_003` resolver a tick in which both live
boards' computed next heads are independently fatal resolves both boards —
both end terminated — and emits a draw: `winnerId = 0` with reason
`'draw'`. -/
theorem bothFatal_draw (oracle : List Pos → Pos) (B1 B2 : Board)
    (h1 : B1.isGameOver = false) (h2 : B2.isGameOver = false)
    (f1 : Part003.fatalNext B1 = true) (f2 : Part003.fatalNext B2 = true) :
    Part003.updateGameTick oracle (some B1) (some B2) =
      ((some { B1 with isGameOver := true }, some { B2 with isGameOver := true }),
       some ⟨0, true⟩) := by
  have hA : Part003.tickCore oracle B1 (some B2) =
      ({ B1 with isGameOver := true }, some B2, true) := tickCore_fatal oracle B1 (some B2) f1
  have hB : Part003.tickCore oracle B2 (some { B1 with isGameOver := true }) =
      ({ B2 with isGameOver := true }, some { B1 with isGameOver := true }, true) :=
    tickCore_fatal oracle B2 (some { B1 with isGameOver := true }) f2
  simp [Part003.updateGameTick, Part003.tickSlot, h1, h2, hA, hB, optOver]

/-- Witness for C1: two boards heading into the right wall on the same tick
give a draw. -/
theorem bothFatal_draw_witness :
    Part003.updateGameTick oracleC (some bWallC) (some bWallC) =
      ((some { bWallC with isGameOver := true }, some { bWallC with isGameOver := true }),
       some ⟨0, true⟩) :=
  bothFatal_draw oracleC bWallC bWallC rfl rfl (by decide) (by decide)

/-- Counterexample for C1 as stated: in `src/server.js`, with both boards
one step from the right wall and heading into it, the tick terminates only
board 1, leaves board 2 unresolved (still not terminated), and emits
winner 2 rather than the draw the claim requires. -/
theorem bothFatal_serverJs_winner2 :
    ServerJs.fatalNext bWallC = true ∧
    bWallC.isGameOver = false ∧
    (ServerJs.updateGameTick oracleC bWallC bWallC).2 = some 2 ∧
    (ServerJs.updateGameTick oracleC bWallC bWallC).2 ≠ some 0 ∧
    ((ServerJs.updateGameTick oracleC bWallC bWallC).1.2).isGameOver = false := by
  decide

end Snake

namespace Snake

/-! ## C2 — debuff consumption -/

theorem shrinkSnake_length (n : Nat) :
    ∀ s : List Pos, MIN_SNAKE_LENGTH ≤ s.length →
      (Part003.shrinkSnake n s).length = max MIN_SNAKE_LENGTH (s.length - n) := by
  induction n with
  | zero =>
    intro s h
    simp only [Part003.shrinkSnake, Nat.sub_zero]
    omega
  | succ m ih =>
    intro s h
    unfold Part003.shrinkSnake
    by_cases hlen : MIN_SNAKE_LENGTH < s.length
    · rw [if_pos hlen]
      have hd : s.dropLast.length = s.length - 1 := by simp [List.length_dropLast]
      have h2 : MIN_SNAKE_LENGTH ≤ s.dropLast.length := by
        simp only [MIN_SNAKE_LENGTH] at *
        omega
      rw [ih s.dropLast h2, hd]
      omega
    · rw [if_neg hlen]
      omega

theorem debuffStep_hit (nh : Pos) (b : Board) (i : Nat)
    (h : findIndexPos nh b.debuffs = some i) :
    Part003.debuffStep nh b =
      ({ b with
         debuffs := b.debuffs.eraseIdx i
         score := max 0 (b.score - 5)
         snake := Part003.shrinkSnake DEBUFF_SHRINK_AMOUNT b.snake }, true) := by
  simp [Part003.debuffStep, h]

theorem debuffStep_miss (nh : Pos) (b : Board)
    (h : posMem nh b.debuffs = false) :
    Part003.debuffStep nh b = (b, false) := by
  simp [Part003.debuffStep, findIndexPos_of_not_posMem nh b.debuffs h]

theorem growthStep_afterShrink (nh : Pos) (ate : Bool) (b : Board) :
    Part003.growthStep nh ate true b = ({ b with snake := nh :: b.snake }, false) := by
  cases ate <;> simp [Part003.growthStep]

/-- C2: in the `part_003` resolver, a live board whose (in-bounds,
non-colliding) next head lands on a debuff cell — and not on the food —
loses exactly one debuff, its score becomes `max 0 (score - 5)` and in
particular stays non-negative, and the snake is shrunk by up to
`DEBUFF_SHRINK_AMOUNT` tail segments clamped at `MIN_SNAKE_LENGTH` before
the new head is prepended. -/
theorem debuffConsumption (oracle : List Pos → Pos) (b : Board) (opp : Option Board)
    (hlen : MIN_SNAKE_LENGTH ≤ b.snake.length)
    (hw : wallHit (Part003.nextHeadOf b) = false)
    (hs : posMem (Part003.nextHeadOf b) b.snake = false)
    (hf : posEq (Part003.nextHeadOf b) b.food = false)
    (hd : posMem (Part003.nextHeadOf b) b.debuffs = true) :
    ((Part003.tickCore oracle b opp).1.score = max 0 (b.score - 5)) ∧
    (0 ≤ (Part003.tickCore oracle b opp).1.score) ∧
    ((Part003.tickCore oracle b opp).1.debuffs.length + 1 = b.debuffs.length) ∧
    ((Part003.tickCore oracle b opp).1.snake.length =
      max MIN_SNAKE_LENGTH (b.snake.length - DEBUFF_SHRINK_AMOUNT) + 1) ∧
    (MIN_SNAKE_LENGTH ≤ (Part003.tickCore oracle b opp).1.snake.length) := by
  obtain ⟨i, hidx, hlt⟩ := findIndexPos_of_posMem (Part003.nextHeadOf b) b.debuffs hd
  have hres : Part003.tickCore oracle b opp =
      ({ b with
         debuffs := b.debuffs.eraseIdx i
         score := max 0 (b.score - 5)
         snake := Part003.nextHeadOf b ::
           Part003.shrinkSnake DEBUFF_SHRINK_AMOUNT b.snake }, opp, false) := by
    have hshr : MIN_SNAKE_LENGTH ≤
        (Part003.shrinkSnake DEBUFF_SHRINK_AMOUNT b.snake).length := by
      rw [shrinkSnake_length DEBUFF_SHRINK_AMOUNT b.snake hlen]
      omega
    simp only [Part003.tickCore, hw, Bool.false_eq_true, if_false, hs, hf]
    rw [debuffStep_hit (Part003.nextHeadOf b) b i hidx]
    simp only [growthStep_afterShrink]
    have hne : (Part003.nextHeadOf b ::
        Part003.shrinkSnake DEBUFF_SHRINK_AMOUNT b.snake).length ≠ 0 := by
      simp
    simp [hne]
  rw [hres]
  refine ⟨rfl, le_max_left 0 (b.score - 5), ?_, ?_, ?_⟩
  · simp only [List.length_eraseIdx, hlt, if_pos]
    omega
  · simp only [List.length_cons]
    rw [shrinkSnake_length DEBUFF_SHRINK_AMOUNT b.snake hlen]
  · simp only [List.length_cons]
    rw [shrinkSnake_length DEBUFF_SHRINK_AMOUNT b.snake hlen]
    simp only [MIN_SNAKE_LENGTH]
    omega

/-- Witness for C2: the concrete board `bDebC` (score 0, length 2, debuff
straight ahead) keeps score 0 and is left with no debuff. -/
theorem debuffConsumption_witness :
    ((Part003.tickCore oracleC bDebC none).1.score = max 0 (bDebC.score - 5)) ∧
    (0 ≤ (Part003.tickCore oracleC bDebC none).1.score) ∧
    ((Part003.tickCore oracleC bDebC none).1.debuffs.length + 1 = bDebC.debuffs.length) ∧
    ((Part003.tickCore oracleC bDebC none).1.snake.length =
      max MIN_SNAKE_LENGTH (bDebC.snake.length - DEBUFF_SHRINK_AMOUNT) + 1) ∧
    (MIN_SNAKE_LENGTH ≤ (Part003.tickCore oracleC bDebC none).1.snake.length) :=
  debuffConsumption oracleC bDebC none (by decide) (by decide) (by decide)
    (by decide) (by decide)

/-- Counterexample for C2 as stated: in `src/server.js` the debuff penalty
is applied without the clamp, so the concrete board `bDebC` (score 0,
debuff straight ahead) ends the tick with score −5 — a negative score,
different from `max 0 (score − 5) = 0`. -/
theorem debuffScore_serverJs_negative :
    ((ServerJs.updateGameTick oracleC bDebC bMidC).1.1).score = -5 ∧
    ¬ (0 ≤ ((ServerJs.updateGameTick oracleC bDebC bMidC).1.1).score) ∧
    ((ServerJs.updateGameTick oracleC bDebC bMidC).1.1).score ≠ max 0 (bDebC.score - 5) := by
  decide

end Snake

namespace Snake

/-! ## C6 witnesses and counterexample -/

set_option maxRecDepth 4000 in
/-- Witness for C6: the saturated constant sampler makes
`getRandomPosition` return the (occupied) draw `(1, 1)`. -/
theorem getRandomPosition_saturation_witness :
    getRandomPosition (fun _ => ⟨1, 1⟩) [⟨1, 1⟩] = (⟨1, 1⟩ : Pos) := by
  have h := getRandomPosition_saturation.2 (fun _ => ⟨1, 1⟩) [⟨1, 1⟩] (by decide)
  simpa using h

set_option maxRecDepth 4000 in
/-- Counterexample for C6 as stated: with every one of the 400 draws
forbidden, `getRandomPosition` does not return `(0, 0)` — it returns the
last (still forbidden) sample `(1, 1)`. -/
theorem getRandomPosition_returns_last_sample :
    ((List.range (GRID_SIZE * GRID_SIZE)).all fun j =>
        posMem ((fun _ => (⟨1, 1⟩ : Pos)) j) [(⟨1, 1⟩ : Pos)]) = true ∧
    getRandomPosition (fun _ => ⟨1, 1⟩) [⟨1, 1⟩] = ⟨1, 1⟩ ∧
    getRandomPosition (fun _ => ⟨1, 1⟩) [⟨1, 1⟩] ≠ ⟨0, 0⟩ ∧
    posMem (getRandomPosition (fun _ => ⟨1, 1⟩) [⟨1, 1⟩]) [(⟨1, 1⟩ : Pos)] = true := by
  decide

/-! ## Shared lemmas about the food branch -/

theorem foodStep_fst (oracle : List Pos → Pos) (b : Board) (opp : Option Board) :
    (Part003.foodStep oracle b opp).1 =
      { b with
        score := b.score + 10
        foodEatenCounter :=
          if DEBUFF_TRIGGER_COUNT ≤ b.foodEatenCounter + 1 then 0
          else b.foodEatenCounter + 1
        food := oracle (b.snake ++ [b.food] ++ b.debuffs ++ b.powerups) } := by
  by_cases h : DEBUFF_TRIGGER_COUNT ≤ b.foodEatenCounter + 1 <;>
    simp [Part003.foodStep, h]

theorem foodStep_snd_alive (oracle : List Pos → Pos) (b o : Board)
    (ho : o.isGameOver = false) (ht : DEBUFF_TRIGGER_COUNT ≤ b.foodEatenCounter + 1) :
    (Part003.foodStep oracle b (some o)).2 =
      some { o with debuffs := o.debuffs ++
        [oracle (o.snake ++ [o.food] ++ o.debuffs ++ o.powerups)] } := by
  simp [Part003.foodStep, ht, ho]

theorem foodStep_snd_dead (oracle : List Pos → Pos) (b o : Board)
    (ho : o.isGameOver = true) :
    (Part003.foodStep oracle b (some o)).2 = some o := by
  by_cases ht : DEBUFF_TRIGGER_COUNT ≤ b.foodEatenCounter + 1 <;>
    simp [Part003.foodStep, ht, ho]

theorem foodStep_snd_none (oracle : List Pos → Pos) (b : Board) :
    (Part003.foodStep oracle b none).2 = none := by
  by_cases ht : DEBUFF_TRIGGER_COUNT ≤ b.foodEatenCounter + 1 <;>
    simp [Part003.foodStep, ht]

theorem foodStep_snd_notrig (oracle : List Pos → Pos) (b : Board) (opp : Option Board)
    (h : b.foodEatenCounter + 1 < DEBUFF_TRIGGER_COUNT) :
    (Part003.foodStep oracle b opp).2 = opp := by
  simp [Part003.foodStep, Nat.not_le.mpr h]

theorem debuffStep_counter (nh : Pos) (b : Board) :
    (Part003.debuffStep nh b).1.foodEatenCounter = b.foodEatenCounter := by
  cases h : findIndexPos nh b.debuffs <;> simp [Part003.debuffStep, h]

theorem growthStep_counter (nh : Pos) (a j : Bool) (b : Board) :
    (Part003.growthStep nh a j b).1.foodEatenCounter = b.foodEatenCounter := by
  simp only [Part003.growthStep]
  repeat' split
  all_goals rfl

theorem tickCore_counter (oracle : List Pos → Pos) (b : Board) (opp : Option Board)
    (hw : wallHit (Part003.nextHeadOf b) = false)
    (hs : posMem (Part003.nextHeadOf b) b.snake = false) :
    (Part003.tickCore oracle b opp).1.foodEatenCounter =
      (if posEq (Part003.nextHeadOf b) b.food = true
       then (Part003.foodStep oracle b opp).1.foodEatenCounter
       else b.foodEatenCounter) := by
  by_cases hf : posEq (Part003.nextHeadOf b) b.food = true <;>
    · simp only [Part003.tickCore, hw, Bool.false_eq_true, if_false, hs, hf, if_true]
      split <;> simp [debuffStep_counter, growthStep_counter, hf]

theorem tickCore_snd (oracle : List Pos → Pos) (b : Board) (opp : Option Board)
    (hw : wallHit (Part003.nextHeadOf b) = false)
    (hs : posMem (Part003.nextHeadOf b) b.snake = false) :
    (Part003.tickCore oracle b opp).2.1 =
      (if posEq (Part003.nextHeadOf b) b.food = true
       then (Part003.foodStep oracle b opp).2
       else opp) := by
  by_cases hf : posEq (Part003.nextHeadOf b) b.food = true <;>
    · simp only [Part003.tickCore, hw, Bool.false_eq_true, if_false, hs, hf, if_true]
      split <;> simp [hf]

end Snake

namespace Snake

/-! ## C5 — debuff cadence -/

theorem foodStep_snake (oracle : List Pos → Pos) (b : Board) (opp : Option Board) :
    (Part003.foodStep oracle b opp).1.snake = b.snake := by
  rw [foodStep_fst]

theorem foodStep_debuffs (oracle : List Pos → Pos) (b : Board) (opp : Option Board) :
    (Part003.foodStep oracle b opp).1.debuffs = b.debuffs := by
  rw [foodStep_fst]

/-- C5: in the `part_003` resolver, on a food-eating tick the counter is
incremented; when it thereby reaches `DEBUFF_TRIGGER_COUNT` it resets to 0
and exactly one debuff is pushed onto the opponent's set precisely when the
opponent board exists and is not terminated, while below the trigger the
counter simply increments and the opponent slot is untouched. -/
theorem debuffCadence (oracle : List Pos → Pos) (b : Board) (opp : Option Board)
    (hw : wallHit (Part003.nextHeadOf b) = false)
    (hs : posMem (Part003.nextHeadOf b) b.snake = false)
    (hf : posEq (Part003.nextHeadOf b) b.food = true) :
    (b.foodEatenCounter + 1 = DEBUFF_TRIGGER_COUNT →
      ((Part003.tickCore oracle b opp).1.foodEatenCounter = 0) ∧
      (∀ o : Board, opp = some o → o.isGameOver = false →
        (Part003.tickCore oracle b opp).2.1 =
          some { o with debuffs := o.debuffs ++
            [oracle (o.snake ++ [o.food] ++ o.debuffs ++ o.powerups)] } ∧
        ∃ o', (Part003.tickCore oracle b opp).2.1 = some o' ∧
          o'.debuffs.length = o.debuffs.length + 1) ∧
      (∀ o : Board, opp = some o → o.isGameOver = true →
        (Part003.tickCore oracle b opp).2.1 = some o) ∧
      (opp = none → (Part003.tickCore oracle b opp).2.1 = none)) ∧
    (b.foodEatenCounter + 1 < DEBUFF_TRIGGER_COUNT →
      ((Part003.tickCore oracle b opp).1.foodEatenCounter = b.foodEatenCounter + 1) ∧
      (Part003.tickCore oracle b opp).2.1 = opp) := by
  have hc := tickCore_counter oracle b opp hw hs
  have hsnd := tickCore_snd oracle b opp hw hs
  simp only [hf, if_true] at hc hsnd
  constructor
  · intro htrig
    have ht : DEBUFF_TRIGGER_COUNT ≤ b.foodEatenCounter + 1 := by omega
    refine ⟨?_, ?_, ?_, ?_⟩
    · rw [hc, foodStep_fst]
      simp [ht]
    · intro o ho halive
      subst ho
      rw [hsnd, foodStep_snd_alive oracle b o halive ht]
      exact ⟨rfl, ⟨_, rfl, by simp⟩⟩
    · intro o ho hdead
      subst ho
      rw [hsnd, foodStep_snd_dead oracle b o hdead]
    · intro ho
      subst ho
      rw [hsnd, foodStep_snd_none]
  · intro hlt
    constructor
    · rw [hc, foodStep_fst]
      simp [Nat.not_le.mpr hlt]
    · rw [hsnd, foodStep_snd_notrig oracle b opp hlt]

/-- Witness for C5: with counter 2 and food ahead the counter resets and
the live opponent gains exactly one debuff; with counter 0 it goes to 1 and
the opponent is untouched. -/
theorem debuffCadence_witness :
    ((Part003.tickCore oracleC bTrigC (some bDebC)).1.foodEatenCounter = 0) ∧
    ((Part003.tickCore oracleC bTrigC (some bDebC)).2.1 =
      some { bDebC with debuffs := bDebC.debuffs ++
        [oracleC (bDebC.snake ++ [bDebC.food] ++ bDebC.debuffs ++ bDebC.powerups)] }) ∧
    ((Part003.tickCore oracleC bMidC (some bDebC)).1.foodEatenCounter =
      bMidC.foodEatenCounter + 1) ∧
    ((Part003.tickCore oracleC bMidC (some bDebC)).2.1 = some bDebC) := by
  have h1 := debuffCadence oracleC bTrigC (some bDebC) (by decide) (by decide) (by decide)
  have h2 := debuffCadence oracleC bMidC (some bDebC) (by decide) (by decide) (by decide)
  exact ⟨(h1.1 (by decide)).1, ((h1.1 (by decide)).2.1 bDebC rfl (by decide)).1,
    (h2.2 (by decide)).1, (h2.2 (by decide)).2⟩

/-! ## C7 — food consumption and plain moves -/

theorem growthStep_food (nh : Pos) (b : Board) :
    Part003.growthStep nh true false b = ({ b with snake := nh :: b.snake }, false) := by
  simp [Part003.growthStep]

theorem growthStep_plain_pop (nh : Pos) (b : Board)
    (h : MIN_SNAKE_LENGTH < (nh :: b.snake).length) :
    Part003.growthStep nh false false b =
      ({ b with snake := (nh :: b.snake).dropLast }, false) := by
  simp only [Part003.growthStep, List.length_cons] at h ⊢
  simp [h]

theorem tickCore_food (oracle : List Pos → Pos) (b : Board) (opp : Option Board)
    (hw : wallHit (Part003.nextHeadOf b) = false)
    (hs : posMem (Part003.nextHeadOf b) b.snake = false)
    (hf : posEq (Part003.nextHeadOf b) b.food = true)
    (hd : posMem (Part003.nextHeadOf b) b.debuffs = false) :
    Part003.tickCore oracle b opp =
      ({ (Part003.foodStep oracle b opp).1 with
         snake := Part003.nextHeadOf b :: b.snake },
       (Part003.foodStep oracle b opp).2, false) := by
  simp only [Part003.tickCore, hw, Bool.false_eq_true, if_false, hs, hf, if_true]
  rw [debuffStep_miss _ _ (by rw [foodStep_debuffs]; exact hd)]
  rw [growthStep_food]
  simp [foodStep_snake]

/-- C7: in the `part_003` resolver, eating food adds exactly 10 to the
score, prepends the new head with no tail pop (net length +1), respawns the
food through the oracle with the exclusion list snake ∪ food ∪ debuffs ∪
powerups, and increments the counter (resetting it at the trigger); and a
tick with neither food nor debuff leaves the snake length of a board longer
than `MIN_SNAKE_LENGTH` unchanged. -/
theorem foodConsumption :
    (∀ (oracle : List Pos → Pos) (b : Board) (opp : Option Board),
      b.isGameOver = false →
      wallHit (Part003.nextHeadOf b) = false →
      posMem (Part003.nextHeadOf b) b.snake = false →
      posEq (Part003.nextHeadOf b) b.food = true →
      posMem (Part003.nextHeadOf b) b.debuffs = false →
      ((Part003.tickCore oracle b opp).1.score = b.score + 10) ∧
      ((Part003.tickCore oracle b opp).1.snake = Part003.nextHeadOf b :: b.snake) ∧
      ((Part003.tickCore oracle b opp).1.snake.length = b.snake.length + 1) ∧
      ((Part003.tickCore oracle b opp).1.food =
        oracle (b.snake ++ [b.food] ++ b.debuffs ++ b.powerups)) ∧
      ((Part003.tickCore oracle b opp).1.foodEatenCounter =
        if DEBUFF_TRIGGER_COUNT ≤ b.foodEatenCounter + 1 then 0
        else b.foodEatenCounter + 1) ∧
      ((Part003.tickCore oracle b opp).1.isGameOver = false)) ∧
    (∀ (oracle : List Pos → Pos) (b : Board) (opp : Option Board),
      posEq (Part003.nextHeadOf b) b.food = false →
      posMem (Part003.nextHeadOf b) b.debuffs = false →
      MIN_SNAKE_LENGTH < b.snake.length →
      (Part003.tickCore oracle b opp).1.snake.length = b.snake.length) := by
  constructor
  · intro oracle b opp hover hw hs hf hd
    rw [tickCore_food oracle b opp hw hs hf hd]
    refine ⟨?_, rfl, by simp, ?_, ?_, ?_⟩ <;> simp [foodStep_fst, hover]
  · intro oracle b opp hf hd hlen
    cases hw : wallHit (Part003.nextHeadOf b)
    · cases hs : posMem (Part003.nextHeadOf b) b.snake
      · simp only [Part003.tickCore, hw, Bool.false_eq_true, if_false, hs, hf]
        rw [debuffStep_miss _ _ hd]
        rw [growthStep_plain_pop _ _ (by simp only [List.length_cons]; omega)]
        have hlen0 : (Part003.nextHeadOf b :: b.snake).dropLast.length = b.snake.length := by
          simp
        split <;> simp [hlen0]
      · rw [tickCore_fatal oracle b opp (by simp [Part003.fatalNext, hs])]
    · rw [tickCore_fatal oracle b opp (by simp [Part003.fatalNext, hw])]

/-- Witness for C7: the spec's own scenario — snake `[(5,5),(4,5)]` heading
right with food at `(6,5)` grows to length 3 with score 10 — plus a plain
move of a length-3 board keeping length 3. -/
theorem foodConsumption_witness :
    ((Part003.tickCore oracleC bMidC none).1.score = bMidC.score + 10) ∧
    ((Part003.tickCore oracleC bMidC none).1.snake.length = bMidC.snake.length + 1) ∧
    ((Part003.tickCore oracleC bMidC none).1.food =
      oracleC (bMidC.snake ++ [bMidC.food] ++ bMidC.debuffs ++ bMidC.powerups)) ∧
    ((Part003.tickCore oracleC bLong3C none).1.snake.length = bLong3C.snake.length) := by
  have h1 := foodConsumption.1 oracleC bMidC none rfl (by decide) (by decide)
    (by decide) (by decide)
  have h2 := foodConsumption.2 oracleC bLong3C none (by decide) (by decide) (by decide)
  exact ⟨h1.1, h1.2.2.1, h1.2.2.2.1, h2⟩

end Snake

namespace Snake

/-! ## C3 — the MIN_SNAKE_LENGTH invariant -/

theorem shrinkSnake_min (n : Nat) (s : List Pos) (h : MIN_SNAKE_LENGTH ≤ s.length) :
    MIN_SNAKE_LENGTH ≤ (Part003.shrinkSnake n s).length := by
  rw [shrinkSnake_length n s h]
  exact le_max_left _ _

theorem pipeline_minlen (nh : Pos) (ate : Bool) (c : Board)
    (h : MIN_SNAKE_LENGTH ≤ c.snake.length) :
    MIN_SNAKE_LENGTH ≤
      (Part003.growthStep nh ate (Part003.debuffStep nh c).2
        (Part003.debuffStep nh c).1).1.snake.length := by
  cases hidx : findIndexPos nh c.debuffs with
  | some i =>
    rw [debuffStep_hit nh c i hidx, growthStep_afterShrink]
    have hs := shrinkSnake_min DEBUFF_SHRINK_AMOUNT c.snake h
    simp only [List.length_cons]
    omega
  | none =>
    have hmiss : Part003.debuffStep nh c = (c, false) := by
      simp [Part003.debuffStep, hidx]
    rw [hmiss]
    cases ate
    · rw [growthStep_plain_pop nh c (by
        simp only [List.length_cons, MIN_SNAKE_LENGTH] at h ⊢
        omega)]
      simp only [List.length_dropLast, List.length_cons]
      omega
    · rw [growthStep_food]
      simp only [List.length_cons]
      omega

theorem tickCore_minlen (oracle : List Pos → Pos) (b : Board) (opp : Option Board)
    (h : MIN_SNAKE_LENGTH ≤ b.snake.length) :
    MIN_SNAKE_LENGTH ≤ (Part003.tickCore oracle b opp).1.snake.length := by
  cases hw : wallHit (Part003.nextHeadOf b)
  · cases hs : posMem (Part003.nextHeadOf b) b.snake
    · cases hf : posEq (Part003.nextHeadOf b) b.food
      · simp only [Part003.tickCore, hw, Bool.false_eq_true, if_false, hs, hf]
        have hp := pipeline_minlen (Part003.nextHeadOf b) false b h
        split <;> simpa using hp
      · simp only [Part003.tickCore, hw, Bool.false_eq_true, if_false, hs, hf, if_true]
        have hc : MIN_SNAKE_LENGTH ≤ (Part003.foodStep oracle b opp).1.snake.length := by
          rw [foodStep_snake]; exact h
        have hp := pipeline_minlen (Part003.nextHeadOf b) true
          (Part003.foodStep oracle b opp).1 hc
        split <;> simpa using hp
    · rw [tickCore_fatal oracle b opp (by simp [Part003.fatalNext, hs])]
      exact h
  · rw [tickCore_fatal oracle b opp (by simp [Part003.fatalNext, hw])]
    exact h

theorem tickCore_snd_pres (oracle : List Pos → Pos) (b : Board) (opp : Option Board) :
    ∀ o', (Part003.tickCore oracle b opp).2.1 = some o' →
      ∃ o, opp = some o ∧ o'.snake = o.snake ∧ o'.isGameOver = o.isGameOver := by
  intro o' h
  cases hw : wallHit (Part003.nextHeadOf b)
  · cases hs : posMem (Part003.nextHeadOf b) b.snake
    · rw [tickCore_snd oracle b opp hw hs] at h
      by_cases hf : posEq (Part003.nextHeadOf b) b.food = true
      · rw [if_pos hf] at h
        cases opp with
        | none => rw [foodStep_snd_none] at h; exact absurd h (by simp)
        | some o =>
          cases ho : o.isGameOver
          · by_cases ht : DEBUFF_TRIGGER_COUNT ≤ b.foodEatenCounter + 1
            · rw [foodStep_snd_alive oracle b o ho ht] at h
              obtain rfl := Option.some.inj h.symm
              exact ⟨o, rfl, rfl, by simp [ho]⟩
            · rw [foodStep_snd_notrig oracle b (some o) (Nat.not_le.mp ht)] at h
              obtain rfl := Option.some.inj h.symm
              exact ⟨o', rfl, rfl, rfl⟩
          · rw [foodStep_snd_dead oracle b o ho] at h
            obtain rfl := Option.some.inj h.symm
            exact ⟨o', rfl, rfl, rfl⟩
      · rw [if_neg hf] at h
        exact ⟨o', h, rfl, rfl⟩
    · rw [tickCore_fatal oracle b opp (by simp [Part003.fatalNext, hs])] at h
      exact ⟨o', h, rfl, rfl⟩
  · rw [tickCore_fatal oracle b opp (by simp [Part003.fatalNext, hw])] at h
    exact ⟨o', h, rfl, rfl⟩

theorem tickSlot_fst_minlen (oracle : List Pos → Pos) (s opp : Option Board)
    (h : ∀ b : Board, s = some b → MIN_SNAKE_LENGTH ≤ b.snake.length) :
    ∀ b', (Part003.tickSlot oracle s opp).1 = some b' →
      MIN_SNAKE_LENGTH ≤ b'.snake.length := by
  intro b' hb
  cases s with
  | none => simp [Part003.tickSlot] at hb
  | some b =>
    have hmin := h b rfl
    by_cases hover : b.isGameOver = true
    · simp only [Part003.tickSlot, hover, if_true] at hb
      obtain rfl := Option.some.inj hb
      exact hmin
    · simp only [Part003.tickSlot, hover, if_false] at hb
      obtain rfl := Option.some.inj hb
      exact tickCore_minlen oracle b opp hmin

theorem tickSlot_snd_pres (oracle : List Pos → Pos) (s opp : Option Board) :
    ∀ o', (Part003.tickSlot oracle s opp).2.1 = some o' →
      ∃ o, opp = some o ∧ o'.snake = o.snake ∧ o'.isGameOver = o.isGameOver := by
  intro o' h
  cases s with
  | none =>
    simp only [Part003.tickSlot] at h
    exact ⟨o', h, rfl, rfl⟩
  | some b =>
    by_cases hover : b.isGameOver = true
    · simp only [Part003.tickSlot, hover, if_true] at h
      exact ⟨o', h, rfl, rfl⟩
    · simp only [Part003.tickSlot, hover, if_false] at h
      exact tickCore_snd_pres oracle b opp o' h

theorem updateGameTick_boards (oracle : List Pos → Pos) (s1 s2 : Option Board) :
    (Part003.updateGameTick oracle s1 s2).1 =
      ((Part003.tickSlot oracle (Part003.tickSlot oracle s1 s2).2.1
          (Part003.tickSlot oracle s1 s2).1).2.1,
       (Part003.tickSlot oracle (Part003.tickSlot oracle s1 s2).2.1
          (Part003.tickSlot oracle s1 s2).1).1) := by
  simp only [Part003.updateGameTick]
  split <;> rfl

end Snake

namespace Snake

theorem sjShrink_min (n : Nat) : ∀ s : List Pos, MIN_SNAKE_LENGTH ≤ s.length →
    MIN_SNAKE_LENGTH ≤ (ServerJs.sjShrink n s).1.length := by
  induction n with
  | zero => intro s h; simpa [ServerJs.sjShrink] using h
  | succ m ih =>
    intro s h
    unfold ServerJs.sjShrink
    by_cases hlen : MIN_SNAKE_LENGTH < s.length
    · rw [if_pos hlen]
      have h2 : MIN_SNAKE_LENGTH ≤ s.dropLast.length := by
        simp only [List.length_dropLast, MIN_SNAKE_LENGTH] at *
        omega
      simpa using ih s.dropLast h2
    · rw [if_neg hlen]
      simpa using h

theorem sjDebuff_minlen (nh : Pos) (c : Board) (h : MIN_SNAKE_LENGTH ≤ c.snake.length) :
    MIN_SNAKE_LENGTH ≤ (ServerJs.debuffStep nh c).1.snake.length := by
  cases hidx : findIndexPos nh c.debuffs <;> simp only [ServerJs.debuffStep, hidx]
  · exact h
  · simpa using sjShrink_min DEBUFF_SHRINK_AMOUNT c.snake h

theorem sjGrowth_minlen (nh : Pos) (ate : Bool) (k : Nat) (c : Board)
    (h : MIN_SNAKE_LENGTH ≤ c.snake.length) :
    MIN_SNAKE_LENGTH ≤ (ServerJs.growthStep nh ate k c).snake.length := by
  simp only [ServerJs.growthStep]
  split
  · simp only [List.dropLast_cons_of_ne_nil, List.length_dropLast, List.length_cons]
    simpa using h
  · simp only [List.length_cons]
    omega

theorem sjFoodStep_snake (oracle : List Pos → Pos) (b opp : Board) :
    (ServerJs.foodStep oracle b opp).1.snake = b.snake := by
  simp only [ServerJs.foodStep]
  split <;> rfl

theorem sjFoodStep_snd_pres (oracle : List Pos → Pos) (b opp : Board) :
    (ServerJs.foodStep oracle b opp).2.snake = opp.snake ∧
    (ServerJs.foodStep oracle b opp).2.isGameOver = opp.isGameOver := by
  simp only [ServerJs.foodStep]
  split
  · by_cases ho : opp.isGameOver = true <;> simp [ho]
  · exact ⟨rfl, rfl⟩

theorem sjTickCore_minlen (oracle : List Pos → Pos) (b opp : Board)
    (h : MIN_SNAKE_LENGTH ≤ b.snake.length) :
    MIN_SNAKE_LENGTH ≤ ((ServerJs.tickCore oracle b opp).1).snake.length := by
  cases hw : wallHit (ServerJs.nextHeadOf b)
  · cases hs : posMem (ServerJs.nextHeadOf b) b.snake
    · cases hf : posEq (ServerJs.nextHeadOf b) b.food
      · simp only [ServerJs.tickCore, hw, Bool.false_eq_true, if_false, hs, hf]
        exact sjGrowth_minlen _ _ _ _ (sjDebuff_minlen _ _ h)
      · simp only [ServerJs.tickCore, hw, Bool.false_eq_true, if_false, hs, hf, if_true]
        refine sjGrowth_minlen _ _ _ _ (sjDebuff_minlen _ _ ?_)
        rw [sjFoodStep_snake]
        exact h
    · simp only [ServerJs.tickCore, hw, Bool.false_eq_true, if_false, hs]
      exact h
  · simp only [ServerJs.tickCore, hw]
    exact h

theorem sjTickCore_snd_pres (oracle : List Pos → Pos) (b opp : Board) :
    ((ServerJs.tickCore oracle b opp).2.1).snake = opp.snake ∧
    ((ServerJs.tickCore oracle b opp).2.1).isGameOver = opp.isGameOver := by
  cases hw : wallHit (ServerJs.nextHeadOf b)
  · cases hs : posMem (ServerJs.nextHeadOf b) b.snake
    · cases hf : posEq (ServerJs.nextHeadOf b) b.food
      · refine ⟨?_, ?_⟩ <;>
          · simp only [ServerJs.tickCore, hw, Bool.false_eq_true, if_false, hs, hf]
      · simp only [ServerJs.tickCore, hw, Bool.false_eq_true, if_false, hs, hf, if_true]
        exact sjFoodStep_snd_pres oracle b opp
    · refine ⟨?_, ?_⟩ <;>
        · simp only [ServerJs.tickCore, hw, Bool.false_eq_true, if_false, hs,
            eq_self_iff_true, if_true]
  · refine ⟨?_, ?_⟩ <;>
      · simp only [ServerJs.tickCore, hw, eq_self_iff_true, if_true]

theorem sjUpdate_minlen (oracle : List Pos → Pos) (B1 B2 : Board)
    (h1 : MIN_SNAKE_LENGTH ≤ B1.snake.length) (h2 : MIN_SNAKE_LENGTH ≤ B2.snake.length) :
    MIN_SNAKE_LENGTH ≤ ((ServerJs.updateGameTick oracle B1 B2).1.1).snake.length ∧
    MIN_SNAKE_LENGTH ≤ ((ServerJs.updateGameTick oracle B1 B2).1.2).snake.length := by
  cases ho1 : B1.isGameOver
  · cases hg : ((ServerJs.tickCore oracle B1 B2).2.2 ||
        ((ServerJs.tickCore oracle B1 B2).2.1).isGameOver)
    · simp only [ServerJs.updateGameTick, ho1, hg, Bool.false_eq_true, if_false]
      constructor
      · rw [(sjTickCore_snd_pres oracle
          (ServerJs.tickCore oracle B1 B2).2.1 (ServerJs.tickCore oracle B1 B2).1).1]
        exact sjTickCore_minlen oracle B1 B2 h1
      · refine sjTickCore_minlen oracle _ _ ?_
        rw [(sjTickCore_snd_pres oracle B1 B2).1]
        exact h2
    · simp only [ServerJs.updateGameTick, ho1, hg, Bool.false_eq_true, if_false,
        eq_self_iff_true, if_true]
      constructor
      · exact sjTickCore_minlen oracle B1 B2 h1
      · rw [(sjTickCore_snd_pres oracle B1 B2).1]
        exact h2
  · cases ho2 : B2.isGameOver
    · simp only [ServerJs.updateGameTick, ho1, ho2, Bool.false_or, Bool.false_eq_true,
        eq_self_iff_true, if_true, if_false]
      constructor
      · rw [(sjTickCore_snd_pres oracle B2 B1).1]
        exact h1
      · exact sjTickCore_minlen oracle B2 B1 h2
    · simp only [ServerJs.updateGameTick, ho1, ho2, Bool.false_or, eq_self_iff_true, if_true]
      exact ⟨h1, h2⟩

/-- C3: a snake never drops below `MIN_SNAKE_LENGTH` segments.  Fresh
boards start at exactly `MIN_SNAKE_LENGTH`, and one full tick of either
resolver — any combination of food, debuff, or plain moves — keeps every
board whose length was at least `MIN_SNAKE_LENGTH` at or above it; in
particular every non-terminated board after a tick has length at least
`MIN_SNAKE_LENGTH`. -/
theorem minSnakeLength_invariant :
    (∀ (oracle : List Pos → Pos) (playerId : Nat),
      (Part003.createNewBoardState oracle playerId).snake.length = MIN_SNAKE_LENGTH ∧
      (Part003.createNewBoardState oracle playerId).isGameOver = false) ∧
    (∀ (oracle : List Pos → Pos) (B1 B2 : Board),
      MIN_SNAKE_LENGTH ≤ B1.snake.length → MIN_SNAKE_LENGTH ≤ B2.snake.length →
      (∀ b1', (Part003.updateGameTick oracle (some B1) (some B2)).1.1 = some b1' →
        b1'.isGameOver = false → MIN_SNAKE_LENGTH ≤ b1'.snake.length) ∧
      (∀ b2', (Part003.updateGameTick oracle (some B1) (some B2)).1.2 = some b2' →
        b2'.isGameOver = false → MIN_SNAKE_LENGTH ≤ b2'.snake.length)) ∧
    (∀ (oracle : List Pos → Pos) (B1 B2 : Board),
      MIN_SNAKE_LENGTH ≤ B1.snake.length → MIN_SNAKE_LENGTH ≤ B2.snake.length →
      MIN_SNAKE_LENGTH ≤ ((ServerJs.updateGameTick oracle B1 B2).1.1).snake.length ∧
      MIN_SNAKE_LENGTH ≤ ((ServerJs.updateGameTick oracle B1 B2).1.2).snake.length) := by
  refine ⟨fun oracle playerId => ⟨rfl, rfl⟩, ?_, sjUpdate_minlen⟩
  intro oracle B1 B2 h1 h2
  constructor
  · intro b1' hb1 _
    rw [updateGameTick_boards] at hb1
    obtain ⟨o, ho, hsnake, _⟩ := tickSlot_snd_pres oracle _ _ b1' hb1
    have hmin := tickSlot_fst_minlen oracle (some B1) (some B2)
      (fun b hb => by obtain rfl := Option.some.inj hb; exact h1) o ho
    rw [hsnake]
    exact hmin
  · intro b2' hb2 _
    rw [updateGameTick_boards] at hb2
    refine tickSlot_fst_minlen oracle _ _ ?_ b2' hb2
    intro b hb
    obtain ⟨o, ho, hsnake, _⟩ := tickSlot_snd_pres oracle (some B1) (some B2) b hb
    obtain rfl := Option.some.inj ho
    rw [hsnake]
    exact h2

/-- Witness for C3: one tick of each resolver on the spec's own scenarios
keeps both boards at length ≥ 2. -/
theorem minSnakeLength_invariant_witness :
    ((Part003.createNewBoardState oracleC 1).snake.length = MIN_SNAKE_LENGTH) ∧
    (∀ b1', (Part003.updateGameTick oracleC (some bMidC) (some bDebC)).1.1 = some b1' →
      b1'.isGameOver = false → MIN_SNAKE_LENGTH ≤ b1'.snake.length) ∧
    (MIN_SNAKE_LENGTH ≤ ((ServerJs.updateGameTick oracleC bMidC bDebC).1.1).snake.length) := by
  refine ⟨(minSnakeLength_invariant.1 oracleC 1).1, ?_, ?_⟩
  · exact (minSnakeLength_invariant.2.1 oracleC bMidC bDebC (by decide) (by decide)).1
  · exact (minSnakeLength_invariant.2.2 oracleC bMidC bDebC (by decide) (by decide)).1

end Snake

namespace Snake

/-! ## C8 — AI safety -/

theorem chooseStep_fst (h f : Pos) (c : Dir) (acc : Option Dir × Option Nat) (d : Dir) :
    (Part003.chooseStep h f c acc d).1 = some d ∨
    (Part003.chooseStep h f c acc d).1 = acc.1 := by
  rcases acc with ⟨a1, a2⟩
  cases a2 with
  | none => left; rfl
  | some m =>
    simp only [Part003.chooseStep]
    split_ifs <;> simp

theorem chooseStep_isSome (h f : Pos) (c : Dir) (acc : Option Dir × Option Nat) (d : Dir)
    (ha : acc.1.isSome = true) :
    (Part003.chooseStep h f c acc d).1.isSome = true := by
  rcases chooseStep_fst h f c acc d with h1 | h1 <;> rw [h1]
  · rfl
  · exact ha

theorem chooseFold_isSome (h f : Pos) (c : Dir) :
    ∀ (l : List Dir) (acc : Option Dir × Option Nat), acc.1.isSome = true →
      ((l.foldl (Part003.chooseStep h f c) acc).1).isSome = true := by
  intro l
  induction l with
  | nil => intro acc ha; simpa using ha
  | cons x xs ih =>
    intro acc ha
    rw [List.foldl_cons]
    exact ih _ (chooseStep_isSome h f c acc x ha)

theorem chooseFold_ne_nil_isSome (h f : Pos) (c : Dir) (l : List Dir) (hl : l ≠ []) :
    ((l.foldl (Part003.chooseStep h f c) (none, none)).1).isSome = true := by
  cases l with
  | nil => exact absurd rfl hl
  | cons x xs =>
    rw [List.foldl_cons]
    exact chooseFold_isSome h f c xs (Part003.chooseStep h f c (none, none) x) rfl

theorem chooseFold_mem (h f : Pos) (c : Dir) :
    ∀ (l : List Dir) (acc : Option Dir × Option Nat) (d : Dir),
      (l.foldl (Part003.chooseStep h f c) acc).1 = some d →
      acc.1 = some d ∨ d ∈ l := by
  intro l
  induction l with
  | nil =>
    intro acc d hd
    exact Or.inl (by simpa using hd)
  | cons x xs ih =>
    intro acc d hd
    rw [List.foldl_cons] at hd
    rcases ih _ d hd with h1 | h1
    · rcases chooseStep_fst h f c acc x with h2 | h2
      · rw [h2] at h1
        obtain rfl := Option.some.inj h1
        exact Or.inr (List.mem_cons_self x xs)
      · rw [h2] at h1
        exact Or.inl h1
    · exact Or.inr (List.mem_cons_of_mem x h1)

theorem getAiNextMove_cases (b : Board) (opp : Option Board)
    (hne : b.snake.isEmpty = false) :
    (Part003.getAiNextMove b opp = b.direction ∧
      Part003.allDirections.filter
        (Part003.aiLevel1Keep (b.snake.headD ⟨0, 0⟩) b.snake b.direction) = []) ∨
    Part003.aiLevel1Keep (b.snake.headD ⟨0, 0⟩) b.snake b.direction
      (Part003.getAiNextMove b opp) = true := by
  cases hL1 : (Part003.allDirections.filter
      (Part003.aiLevel1Keep (b.snake.headD ⟨0, 0⟩) b.snake b.direction)).isEmpty
  · right
    have hL1ne : Part003.allDirections.filter
        (Part003.aiLevel1Keep (b.snake.headD ⟨0, 0⟩) b.snake b.direction) ≠ [] := by
      intro hnil
      rw [hnil] at hL1
      simp at hL1
    rcases hfold : (((if ((Part003.allDirections.filter
        (Part003.aiLevel1Keep (b.snake.headD ⟨0, 0⟩) b.snake b.direction)).filter
          (Part003.aiLevel2Keep (b.snake.headD ⟨0, 0⟩) b.snake b.food)).isEmpty = true
        then Part003.allDirections.filter
          (Part003.aiLevel1Keep (b.snake.headD ⟨0, 0⟩) b.snake b.direction)
        else (Part003.allDirections.filter
          (Part003.aiLevel1Keep (b.snake.headD ⟨0, 0⟩) b.snake b.direction)).filter
            (Part003.aiLevel2Keep (b.snake.headD ⟨0, 0⟩) b.snake b.food)).foldl
        (Part003.chooseStep (b.snake.headD ⟨0, 0⟩) b.food b.direction) (none, none)).1)
      with _ | d
    · exfalso
      have hbne : (if ((Part003.allDirections.filter
          (Part003.aiLevel1Keep (b.snake.headD ⟨0, 0⟩) b.snake b.direction)).filter
            (Part003.aiLevel2Keep (b.snake.headD ⟨0, 0⟩) b.snake b.food)).isEmpty = true
          then Part003.allDirections.filter
            (Part003.aiLevel1Keep (b.snake.headD ⟨0, 0⟩) b.snake b.direction)
          else (Part003.allDirections.filter
            (Part003.aiLevel1Keep (b.snake.headD ⟨0, 0⟩) b.snake b.direction)).filter
              (Part003.aiLevel2Keep (b.snake.headD ⟨0, 0⟩) b.snake b.food)) ≠ [] := by
        cases h2e : ((Part003.allDirections.filter
            (Part003.aiLevel1Keep (b.snake.headD ⟨0, 0⟩) b.snake b.direction)).filter
              (Part003.aiLevel2Keep (b.snake.headD ⟨0, 0⟩) b.snake b.food)).isEmpty
        · simp only [h2e, Bool.false_eq_true, if_false]
          intro hnil
          rw [hnil] at h2e
          simp at h2e
        · simp only [h2e, eq_self_iff_true, if_true]
          exact hL1ne
      have hsome := chooseFold_ne_nil_isSome (b.snake.headD ⟨0, 0⟩) b.food b.direction _ hbne
      rw [hfold] at hsome
      simp at hsome
    · have hval : Part003.getAiNextMove b opp = d := by
        simp only [Part003.getAiNextMove, hne, Bool.false_eq_true, if_false, hL1, hfold]
      rw [hval]
      rcases chooseFold_mem (b.snake.headD ⟨0, 0⟩) b.food b.direction _ (none, none) d hfold
        with hacc | hmem
      · simp at hacc
      · have hd1 : d ∈ Part003.allDirections.filter
            (Part003.aiLevel1Keep (b.snake.headD ⟨0, 0⟩) b.snake b.direction) := by
          cases h2e : ((Part003.allDirections.filter
              (Part003.aiLevel1Keep (b.snake.headD ⟨0, 0⟩) b.snake b.direction)).filter
                (Part003.aiLevel2Keep (b.snake.headD ⟨0, 0⟩) b.snake b.food)).isEmpty
          · simp only [h2e, Bool.false_eq_true, if_false] at hmem
            exact (List.mem_filter.mp hmem).1
          · simp only [h2e, eq_self_iff_true, if_true] at hmem
            exact hmem
        exact (List.mem_filter.mp hd1).2
  · left
    constructor
    · simp only [Part003.getAiNextMove, hne, Bool.false_eq_true, if_false, hL1,
        eq_self_iff_true, if_true]
    · exact List.isEmpty_iff.mp hL1

/-- C8: for a non-empty AI snake, `getAiNextMove` never returns the exact
reverse of the current heading, and whenever at least one non-reverse
direction keeps the resulting head in bounds and off every current snake
segment, the returned direction is one of those safe directions
(`aiLevel1Keep`). -/
theorem aiSafety (b : Board) (opp : Option Board) (hne : b.snake ≠ []) :
    (Part003.getAiNextMove b opp ≠ Part003.revDir b.direction) ∧
    ((Part003.allDirections.any fun d =>
        Part003.aiLevel1Keep (b.snake.headD ⟨0, 0⟩) b.snake b.direction d) = true →
      Part003.aiLevel1Keep (b.snake.headD ⟨0, 0⟩) b.snake b.direction
        (Part003.getAiNextMove b opp) = true) := by
  have hne' : b.snake.isEmpty = false := by
    cases hsn : b.snake with
    | nil => exact absurd hsn hne
    | cons _ _ => rfl
  rcases getAiNextMove_cases b opp hne' with ⟨hval, hnil⟩ | hkeep
  · constructor
    · rw [hval]
      exact dir_ne_revDir b.direction
    · intro hany
      exfalso
      obtain ⟨d, hdm, hdp⟩ := List.any_eq_true.mp hany
      have hdf : d ∈ Part003.allDirections.filter
          (Part003.aiLevel1Keep (b.snake.headD ⟨0, 0⟩) b.snake b.direction) :=
        List.mem_filter.mpr ⟨hdm, hdp⟩
      rw [hnil] at hdf
      exact absurd hdf (List.not_mem_nil d)
  · constructor
    · intro heq
      rw [heq] at hkeep
      simp [Part003.aiLevel1Keep] at hkeep
    · exact fun _ => hkeep

/-- Witness for C8 at a concrete state: mid-grid, heading right with food
ahead, the AI picks `right`, which is safe and is not the reverse
(`left`). -/
theorem aiSafety_witness :
    (Part003.getAiNextMove bMidC none ≠ Part003.revDir bMidC.direction) ∧
    Part003.aiLevel1Keep (bMidC.snake.headD ⟨0, 0⟩) bMidC.snake bMidC.direction
      (Part003.getAiNextMove bMidC none) = true :=
  ⟨(aiSafety bMidC none (by decide)).1,
   (aiSafety bMidC none (by decide)).2 (by decide)⟩

end Snake
